import Mathlib

/-!
Verification of the openweathermap IoTConnect publisher adapter
(`openweathermap/openweathermap.go`).

The adapter is shallowly embedded: the publisher framework's registry
(nodes, outputs, output values, forecasts, error statuses) is explicit
state threaded through pure functions; the weather client is a function
parameter returning `Except`; Go float64 values are modelled as `ℚ` and
`fmt.Sprintf` verbs as explicit decimal-formatting functions.
-/

/-- Instance name for current weather (`CurrentWeatherInst`). -/
def CurrentWeatherInst : String := "current"

/-- Instance name for last 1 hour weather, e.g. rain, snow (`LastHourWeatherInst`). -/
def LastHourWeatherInst : String := "hour"

/-- Instance name for upcoming forecast (`ForecastWeatherInst`). -/
def ForecastWeatherInst : String := "forecast"

/-- Default publisher id (`PublisherID` constant). -/
def defaultPublisherID : String := "openweathermap"

/-- Modelled from the spec: the framework's reserved publisher node id
(`standard.PublisherNodeID`, defined in the external iotconnect library).
Its concrete value is irrelevant; only its distinctness from city names matters. -/
def publisherNodeID : String := "$publisher"

/- Output/sensor type constants of the external `standard` package.
Only their distinctness matters to the adapter. -/

/-- `standard.IOTypeWeather`. -/
def IOTypeWeather : String := "weather"

/-- `standard.IOTypeTemperature`. -/
def IOTypeTemperature : String := "temperature"

/-- `standard.IOTypeHumidity`. -/
def IOTypeHumidity : String := "humidity"

/-- `standard.IOTypeAtmosphericPressure`. -/
def IOTypeAtmosphericPressure : String := "atmosphericpressure"

/-- `standard.IOTypeWindHeading`. -/
def IOTypeWindHeading : String := "windheading"

/-- `standard.IOTypeWindSpeed`. -/
def IOTypeWindSpeed : String := "windspeed"

/-- `standard.IOTypeRain`. -/
def IOTypeRain : String := "rain"

/-- `standard.IOTypeSnow`. -/
def IOTypeSnow : String := "snow"

/-- `standard.DataTypeEnum`. -/
def DataTypeEnum : String := "enum"

/-- A node of the publisher framework registry: zone, publisher id, node id
(the city name), and a configuration map (attribute name to value). -/
structure Node where
  zone : String
  publisherID : String
  id : String
  config : List (String × String)
deriving DecidableEq, Repr

/-- `standard.NewNode(zone, publisherID, city)`: a fresh node with empty config. -/
def newNode (zone publisherID id : String) : Node :=
  { zone := zone, publisherID := publisherID, id := id, config := [] }

/-- A configuration attribute as built by `standard.NewConfig`. -/
structure ConfigAttr where
  name : String
  dataType : String
  description : String
  default : String
deriving DecidableEq, Repr

/-- `standard.NewConfig(name, dataType, description, default)`. -/
def newConfig (name dataType description default : String) : ConfigAttr :=
  { name := name, dataType := dataType, description := description, default := default }

/-- Identity of an output: the (node id, io type, instance) triple. -/
structure OutputKey where
  nodeID : String
  ioType : String
  inst : String
deriving DecidableEq, Repr

/-- A (timestamp, value) history entry (`standard.HistoryValue`);
the timestamp is the unix time the adapter passes to `time.Unix`. -/
structure HistoryValue where
  timestamp : ℤ
  value : String
deriving DecidableEq, Repr

/-- Association-list lookup by key. -/
def assocLookup {α β : Type} [DecidableEq α] : List (α × β) → α → Option β
  | [], _ => none
  | (k, v) :: rest, key => if k = key then some v else assocLookup rest key

/-- Association-list update: replace the value at the key, or append. -/
def assocSet {α β : Type} [DecidableEq α] : List (α × β) → α → β → List (α × β)
  | [], key, v => [(key, v)]
  | (k, w) :: rest, key, v =>
    if k = key then (k, v) :: rest else (k, w) :: assocSet rest key v

/-- The publisher framework state seen by the adapter: the publisher's own
node, the node registry (keyed by node id), the created outputs, the latest
output values, the published forecast lists, and per-node error statuses. -/
structure PublisherState where
  publisherNode : Node
  nodes : List Node
  outputs : List OutputKey
  outputValues : List (OutputKey × String)
  forecasts : List (OutputKey × List HistoryValue)
  nodeStatus : List (String × String)
deriving DecidableEq, Repr

/-- Modelled from the spec: the framework registry's update-node operation
(`Nodes.UpdateNode`) — insert the node if its id is absent; if present,
refresh the node's attributes but keep its stored configuration
("create a node if absent", idempotent update-node semantics). -/
def updateNode (s : PublisherState) (n : Node) : PublisherState :=
  if s.nodes.any (fun m => m.id = n.id) then
    { s with nodes := s.nodes.map (fun m =>
        if m.id = n.id then { n with config := m.config } else m) }
  else
    { s with nodes := s.nodes ++ [n] }

/-- Modelled from the spec: `Nodes.UpdateNodeConfig` — attach the
configuration attribute to the node; the attribute's default becomes the
value only when no prior configuration overrides it. -/
def updateNodeConfig (s : PublisherState) (n : Node) (c : ConfigAttr) : PublisherState :=
  { s with nodes := s.nodes.map (fun m =>
      if m.id = n.id then
        { m with config :=
            match assocLookup m.config c.name with
            | some _ => m.config
            | none => assocSet m.config c.name c.default }
      else m) }

/-- Modelled from the spec: `Outputs.NewOutput` — create the (node, type,
instance) output if absent; creating an existing output is a no-op
("re-invoking ... must not create duplicates"). -/
def newOutput (s : PublisherState) (key : OutputKey) : PublisherState :=
  if key ∈ s.outputs then s else { s with outputs := s.outputs ++ [key] }

/-- Modelled from the spec: `OutputHistory.UpdateOutputValue` — record the
latest value of the output. -/
def updateOutputValue (s : PublisherState) (key : OutputKey) (v : String) : PublisherState :=
  { s with outputValues := assocSet s.outputValues key v }

/-- Modelled from the spec: `PublisherState.UpdateForecast` — hand the
forecast history list for the output to the framework for storage. -/
def updateForecastList (s : PublisherState) (key : OutputKey) (l : List HistoryValue) :
    PublisherState :=
  { s with forecasts := assocSet s.forecasts key l }

/-- Modelled from the spec: `SetErrorStatus` — record a node-level error
status string. -/
def setErrorStatus (s : PublisherState) (nodeID : String) (msg : String) : PublisherState :=
  { s with nodeStatus := assocSet s.nodeStatus nodeID msg }

/-- The WeatherApp application state loaded from openweathermap.conf. -/
structure WeatherApp where
  cities : List String
  apiKey : String
  publisherID : String
deriving DecidableEq, Repr

/-- `NewWeatherApp()`: empty city list, default publisher id. -/
def newWeatherApp : WeatherApp :=
  { cities := [], apiKey := "", publisherID := defaultPublisherID }

/-- The body of `PublishNodes`'s per-city loop: create/refresh the city
node, attach the "language" config (default "en"), and create the fixed
output list, exactly as lines 45–64 of the source. -/
def publishNodesCity (publisherID zone : String) (s : PublisherState) (city : String) :
    PublisherState :=
  let cityNode := newNode zone publisherID city
  let s := updateNode s cityNode
  let lc := newConfig "language" DataTypeEnum
      "Reporting language. See https://openweathermap.org/current for more options" "en"
  let s := updateNodeConfig s cityNode lc
  let s := newOutput s ⟨city, IOTypeWeather, CurrentWeatherInst⟩
  let s := newOutput s ⟨city, IOTypeTemperature, CurrentWeatherInst⟩
  let s := newOutput s ⟨city, IOTypeHumidity, CurrentWeatherInst⟩
  let s := newOutput s ⟨city, IOTypeAtmosphericPressure, CurrentWeatherInst⟩
  let s := newOutput s ⟨city, IOTypeWindHeading, CurrentWeatherInst⟩
  let s := newOutput s ⟨city, IOTypeWindSpeed, CurrentWeatherInst⟩
  let s := newOutput s ⟨city, IOTypeRain, LastHourWeatherInst⟩
  let s := newOutput s ⟨city, IOTypeSnow, LastHourWeatherInst⟩
  let s := newOutput s ⟨city, IOTypeWeather, ForecastWeatherInst⟩
  let s := newOutput s ⟨city, IOTypeTemperature, "max"⟩
  let s := newOutput s ⟨city, IOTypeAtmosphericPressure, "min"⟩
  s

/-- `WeatherApp.PublishNodes`: create the nodes and outputs for every
configured city (source lines 38–66). -/
def publishNodes (app : WeatherApp) (s : PublisherState) : PublisherState :=
  app.cities.foldl (publishNodesCity app.publisherID s.publisherNode.zone) s

/-- One entry of a current-weather or forecast weather-description list. -/
structure WeatherEntry where
  description : String
deriving DecidableEq, Repr

/-- The `Main` section of a current-weather response; Go float64 fields are
modelled as rationals, `Humidity` as an integer. -/
structure MainInfo where
  temperature : ℚ
  humidity : ℤ
  pressure : ℚ
deriving DecidableEq, Repr

/-- The `Wind` section of a current-weather response. -/
structure WindInfo where
  speed : ℚ
  heading : ℚ
deriving DecidableEq, Repr

/-- A rain or snow section with its last-hour amount. -/
structure PrecipInfo where
  lastHour : ℚ
deriving DecidableEq, Repr

/-- A current-weather response from the weather client. -/
structure CurrentWeather where
  weather : List WeatherEntry
  main : MainInfo
  wind : WindInfo
  rain : PrecipInfo
  snow : PrecipInfo
deriving DecidableEq, Repr

/-- Daily temperature block of one forecast entry. -/
structure TempInfo where
  max : ℚ
  min : ℚ
deriving DecidableEq, Repr

/-- One daily-forecast entry: date (unix seconds), description list,
temperature block. -/
structure ForecastEntry where
  date : ℤ
  weather : List WeatherEntry
  temp : TempInfo
deriving DecidableEq, Repr

/-- A daily-forecast response; `list = none` models a Go nil `List` slice,
`some l` a non-nil slice (possibly empty). -/
structure DailyForecast where
  list : Option (List ForecastEntry)
deriving DecidableEq, Repr

/-- Round a rational to the nearest integer, ties to even, as Go's
`fmt` float formatting does; computed on the numerator and denominator in
integer arithmetic so that it evaluates by kernel reduction. The fractional
part is `rem / d` with `0 ≤ rem < d`, so the half-way comparison is
`2 * rem` against `d`. -/
def rne (q : ℚ) : ℤ :=
  let n := q.num
  let d : ℤ := (q.den : ℤ)
  let f := n.fdiv d
  let rem := n - f * d
  if 2 * rem < d then f
  else if d < 2 * rem then f + 1
  else if f % 2 = 0 then f else f + 1

/-- Render `fmt.Sprintf("%.1f", q)`: one decimal place. -/
def fmtF1 (q : ℚ) : String :=
  let n := rne (q * 10)
  let a := n.natAbs
  let s := toString (a / 10) ++ "." ++ toString (a % 10)
  if n < 0 then "-" ++ s else s

/-- Render `fmt.Sprintf("%.0f", q)`: zero decimal places. -/
def fmtF0 (q : ℚ) : String :=
  let n := rne q
  let s := toString n.natAbs
  if n < 0 then "-" ++ s else s

/-- Render `fmt.Sprintf("%d", i)`. -/
def fmtD (i : ℤ) : String :=
  let s := toString i.natAbs
  if i < 0 then "-" ++ s else s

/-- `node.Config["language"].Value`: the node's configured language
(Go map access yields the zero value, the empty string, when absent). -/
def nodeLanguage (n : Node) : String :=
  (assocLookup n.config "language").getD ""

/-- The weather-description extraction of source lines 90–93: first entry's
description, or the empty string for an empty list. -/
def weatherDescriptionOf (l : List WeatherEntry) : String :=
  match l with
  | [] => ""
  | w :: _ => w.description

/-- The eight `UpdateOutputValue` calls of source lines 94–101 for one
city node on a successful fetch. -/
def applyWeatherOutputs (s : PublisherState) (n : Node) (cw : CurrentWeather) :
    PublisherState :=
  let s := updateOutputValue s ⟨n.id, IOTypeWeather, CurrentWeatherInst⟩
      (weatherDescriptionOf cw.weather)
  let s := updateOutputValue s ⟨n.id, IOTypeTemperature, CurrentWeatherInst⟩
      (fmtF1 cw.main.temperature)
  let s := updateOutputValue s ⟨n.id, IOTypeHumidity, CurrentWeatherInst⟩
      (fmtD cw.main.humidity)
  let s := updateOutputValue s ⟨n.id, IOTypeAtmosphericPressure, CurrentWeatherInst⟩
      (fmtF0 cw.main.pressure)
  let s := updateOutputValue s ⟨n.id, IOTypeWindSpeed, CurrentWeatherInst⟩
      (fmtF1 cw.wind.speed)
  let s := updateOutputValue s ⟨n.id, IOTypeWindHeading, CurrentWeatherInst⟩
      (fmtF0 cw.wind.heading)
  let s := updateOutputValue s ⟨n.id, IOTypeRain, LastHourWeatherInst⟩
      (fmtF1 (cw.rain.lastHour * 1000))
  let s := updateOutputValue s ⟨n.id, IOTypeSnow, LastHourWeatherInst⟩
      (fmtF1 (cw.snow.lastHour * 1000))
  s

/-- The per-node loop of `UpdateWeather` (source lines 82–103): skip the
publisher node; on a fetch error set the error status and return
immediately; on success write the eight output values and continue.
`fetch apikey city language` models `GetCurrentWeather`. -/
def updateWeatherLoop (fetch : String → String → String → Except String CurrentWeather)
    (apikey : String) : PublisherState → List Node → PublisherState
  | s, [] => s
  | s, n :: rest =>
    if n.id = publisherNodeID then
      updateWeatherLoop fetch apikey s rest
    else
      match fetch apikey n.id (nodeLanguage n) with
      | .error _ => setErrorStatus s n.id "Current weather not available"
      | .ok cw => updateWeatherLoop fetch apikey (applyWeatherOutputs s n cw) rest

/-- `WeatherApp.UpdateWeather`: run the per-node loop over all registry
nodes. -/
def updateWeather (fetch : String → String → String → Except String CurrentWeather)
    (app : WeatherApp) (s : PublisherState) : PublisherState :=
  updateWeatherLoop fetch app.apiKey s s.nodes

/-- The forecast-list accumulation loop of source lines 130–145, returning
(weatherList, maxTempList, minTempList). Line 144 appends the min entry to
`maxTempList` and assigns the result to `minTempList`, reproduced here
exactly. -/
def buildForecastListsAux (acc : List HistoryValue × List HistoryValue × List HistoryValue) :
    List ForecastEntry → List HistoryValue × List HistoryValue × List HistoryValue
  | [] => acc
  | f :: rest =>
    let weatherList := acc.1 ++ [⟨f.date, weatherDescriptionOf f.weather⟩]
    let maxTempList := acc.2.1 ++ [⟨f.date, fmtF1 f.temp.max⟩]
    let minTempList := maxTempList ++ [⟨f.date, fmtF1 f.temp.min⟩]
    buildForecastListsAux (weatherList, maxTempList, minTempList) rest

/-- The three forecast history lists built by `UpdateForecast` for one
node's forecast entries. -/
def buildForecastLists (l : List ForecastEntry) :
    List HistoryValue × List HistoryValue × List HistoryValue :=
  buildForecastListsAux ([], [], []) l

/-- The per-node loop of `UpdateForecast` (source lines 117–151): skip the
publisher node; on a fetch error, or on a nil forecast list, set the error
status and return immediately; otherwise build and publish the three
forecast lists and continue. `fetch apikey city language` models
`GetDailyForecast`. -/
def updateForecastLoop (fetch : String → String → String → Except String DailyForecast)
    (apikey : String) : PublisherState → List Node → PublisherState
  | s, [] => s
  | s, n :: rest =>
    if n.id = publisherNodeID then
      updateForecastLoop fetch apikey s rest
    else
      match fetch apikey n.id (nodeLanguage n) with
      | .error _ => setErrorStatus s n.id "Error getting the daily forecast"
      | .ok df =>
        match df.list with
        | none => setErrorStatus s n.id "Daily forecast not provided"
        | some entries =>
          let lists := buildForecastLists entries
          let s := updateForecastList s ⟨n.id, IOTypeWeather, ForecastWeatherInst⟩ lists.1
          let s := updateForecastList s ⟨n.id, IOTypeTemperature, "max"⟩ lists.2.1
          let s := updateForecastList s ⟨n.id, IOTypeTemperature, "min"⟩ lists.2.2
          updateForecastLoop fetch apikey s rest

/-- `WeatherApp.UpdateForecast`: run the per-node forecast loop over all
registry nodes. -/
def updateForecast (fetch : String → String → String → Except String DailyForecast)
    (app : WeatherApp) (s : PublisherState) : PublisherState :=
  updateForecastLoop fetch app.apiKey s s.nodes

/-- `Node` attribute map handed to the config handler. -/
def AttrMap : Type := List (String × String)

/-- `WeatherApp.OnNodeConfigHandler` (source lines 155–157): returns nil and
touches nothing; the possibly-mutated receiver is returned explicitly. -/
def onNodeConfigHandler (app : WeatherApp) (_node : Node) (_config : AttrMap) :
    WeatherApp × Option AttrMap :=
  (app, none)

/-- The "language" configuration attribute built at source line 48. -/
def languageConfig : ConfigAttr :=
  newConfig "language" DataTypeEnum
    "Reporting language. See https://openweathermap.org/current for more options" "en"

/-- The eleven output identities `PublishNodes` creates for a city, in
source order (lines 52–64). -/
def cityOutputKeys (c : String) : List OutputKey :=
  [⟨c, IOTypeWeather, CurrentWeatherInst⟩,
   ⟨c, IOTypeTemperature, CurrentWeatherInst⟩,
   ⟨c, IOTypeHumidity, CurrentWeatherInst⟩,
   ⟨c, IOTypeAtmosphericPressure, CurrentWeatherInst⟩,
   ⟨c, IOTypeWindHeading, CurrentWeatherInst⟩,
   ⟨c, IOTypeWindSpeed, CurrentWeatherInst⟩,
   ⟨c, IOTypeRain, LastHourWeatherInst⟩,
   ⟨c, IOTypeSnow, LastHourWeatherInst⟩,
   ⟨c, IOTypeWeather, ForecastWeatherInst⟩,
   ⟨c, IOTypeTemperature, "max"⟩,
   ⟨c, IOTypeAtmosphericPressure, "min"⟩]

/-- Whether a single node already carries the provisioning `PublishNodes`
gives to city `c` nodes: zone, publisher id, and some language config. -/
def nodeProvisionedFor (p z c : String) (m : Node) : Prop :=
  m.id = c → m.zone = z ∧ m.publisherID = p ∧ (assocLookup m.config "language").isSome = true

/-- City `c` is fully provisioned in the registry: a node with its id
exists, every such node carries the provisioning, and all eleven outputs
exist. -/
def cityProvisioned (p z : String) (s : PublisherState) (c : String) : Prop :=
  (∃ m ∈ s.nodes, m.id = c) ∧
  (∀ m ∈ s.nodes, nodeProvisionedFor p z c m) ∧
  (∀ k ∈ cityOutputKeys c, k ∈ s.outputs)

/-- The "language" configuration value of the registry node with the given
id, if any. -/
def nodeLanguageConfig (s : PublisherState) (id : String) : Option String :=
  match s.nodes.find? (fun m => m.id = id) with
  | none => none
  | some m => assocLookup m.config "language"

/- Concrete sample data for closed-form theorems and witnesses. -/

/-- A publisher node carrying the reserved id, as the framework registers it. -/
def pubNode0 : Node :=
  { zone := "myzone", publisherID := defaultPublisherID, id := publisherNodeID, config := [] }

/-- A fresh publisher state: only the publisher's own node is registered. -/
def emptyState : PublisherState :=
  { publisherNode := pubNode0, nodes := [pubNode0], outputs := [], outputValues := [],
    forecasts := [], nodeStatus := [] }

/-- A one-city configuration. -/
def sampleApp : WeatherApp :=
  { cities := ["amsterdam"], apiKey := "key", publisherID := defaultPublisherID }

/-- A two-city configuration. -/
def twoCityApp : WeatherApp :=
  { cities := ["amsterdam", "berlin"], apiKey := "key", publisherID := defaultPublisherID }

/-- The registry node `PublishNodes` creates for "amsterdam". -/
def amsNode : Node :=
  { zone := "myzone", publisherID := defaultPublisherID, id := "amsterdam",
    config := [("language", "en")] }

/-- The registry node `PublishNodes` creates for "berlin". -/
def berNode : Node :=
  { zone := "myzone", publisherID := defaultPublisherID, id := "berlin",
    config := [("language", "en")] }

/-- The state after provisioning the two-city configuration. -/
def provisionedTwo : PublisherState :=
  publishNodes twoCityApp emptyState

/-- A sample current-weather response; `rain.lastHour` is 0.002. -/
def sampleCW : CurrentWeather :=
  { weather := [⟨"clear sky"⟩],
    main := { temperature := Rat.divInt 2932 10, humidity := 55,
              pressure := Rat.divInt 10132 10 },
    wind := { speed := Rat.divInt 34 10, heading := 270 },
    rain := { lastHour := Rat.divInt 2 1000 },
    snow := { lastHour := 0 } }

/-- A current-weather response whose weather-description list is empty. -/
def emptyDescCW : CurrentWeather :=
  { weather := [],
    main := { temperature := 280, humidity := 80, pressure := 990 },
    wind := { speed := 5, heading := 90 },
    rain := { lastHour := 0 },
    snow := { lastHour := 0 } }

/-- A weather client that always fails. -/
def fetchAlwaysError : String → String → String → Except String CurrentWeather :=
  fun _ _ _ => .error "connection refused"

/-- A weather client that always returns `sampleCW`. -/
def fetchSample : String → String → String → Except String CurrentWeather :=
  fun _ _ _ => .ok sampleCW

/-- A weather client that always returns `emptyDescCW`. -/
def fetchEmptyDesc : String → String → String → Except String CurrentWeather :=
  fun _ _ _ => .ok emptyDescCW

/-- A weather client that fails for "berlin" and returns `sampleCW`
elsewhere. -/
def fetchBerlinError : String → String → String → Except String CurrentWeather :=
  fun _ city _ => if city = "berlin" then .error "berlin down" else .ok sampleCW

/-- A forecast client that always fails. -/
def fetchForecastError : String → String → String → Except String DailyForecast :=
  fun _ _ _ => .error "connection refused"

/-- A forecast client returning a nil (absent) forecast list. -/
def fetchForecastNil : String → String → String → Except String DailyForecast :=
  fun _ _ _ => .ok { list := none }

/-- A forecast client returning an empty but non-nil forecast list, as Go
json decoding produces for `"list": []`. -/
def fetchForecastEmpty : String → String → String → Except String DailyForecast :=
  fun _ _ _ => .ok { list := some [] }

/-- A forecast client that fails for "berlin" and returns an empty but
non-nil forecast list elsewhere. -/
def fetchForecastBerlinError : String → String → String → Except String DailyForecast :=
  fun _ city _ => if city = "berlin" then .error "berlin down" else .ok { list := some [] }

theorem assocLookup_assocSet_self {α β : Type} [DecidableEq α]
    (l : List (α × β)) (k : α) (v : β) :
    assocLookup (assocSet l k v) k = some v := by
  induction l with
  | nil => simp [assocSet, assocLookup]
  | cons p rest ih =>
    obtain ⟨a, b⟩ := p
    by_cases h : a = k <;> simp [assocSet, assocLookup, h, ih]

theorem assocLookup_assocSet_ne {α β : Type} [DecidableEq α]
    (l : List (α × β)) (k k2 : α) (v : β) (h : k ≠ k2) :
    assocLookup (assocSet l k v) k2 = assocLookup l k2 := by
  induction l with
  | nil => simp [assocSet, assocLookup, h]
  | cons p rest ih =>
    obtain ⟨a, b⟩ := p
    by_cases h2 : a = k <;> simp [assocSet, assocLookup, h2, h, ih]

theorem updateWeatherLoop_skip_publisher
    (fetch : String → String → String → Except String CurrentWeather) (apikey : String)
    (s : PublisherState) (pre rest : List Node)
    (hpre : ∀ m ∈ pre, m.id = publisherNodeID) :
    updateWeatherLoop fetch apikey s (pre ++ rest) = updateWeatherLoop fetch apikey s rest := by
  induction pre with
  | nil => rfl
  | cons m pre ih =>
    have hm : m.id = publisherNodeID := hpre m (by simp)
    simp only [List.cons_append, updateWeatherLoop, hm, if_pos]
    exact ih (fun m2 hm2 => hpre m2 (by simp [hm2]))

theorem updateForecastLoop_skip_publisher
    (fetch : String → String → String → Except String DailyForecast) (apikey : String)
    (s : PublisherState) (pre rest : List Node)
    (hpre : ∀ m ∈ pre, m.id = publisherNodeID) :
    updateForecastLoop fetch apikey s (pre ++ rest) = updateForecastLoop fetch apikey s rest := by
  induction pre with
  | nil => rfl
  | cons m pre ih =>
    have hm : m.id = publisherNodeID := hpre m (by simp)
    simp only [List.cons_append, updateForecastLoop, hm, if_pos]
    exact ih (fun m2 hm2 => hpre m2 (by simp [hm2]))

theorem buildForecastListsAux_min_eq (e : ForecastEntry) :
    ∀ (l : List ForecastEntry) (acc : List HistoryValue × List HistoryValue × List HistoryValue),
      (buildForecastListsAux acc (l ++ [e])).2.2 =
        (buildForecastListsAux acc (l ++ [e])).2.1 ++ [⟨e.date, fmtF1 e.temp.min⟩]
  | [], acc => by simp [buildForecastListsAux]
  | f :: l, acc => by
    simp only [List.cons_append, buildForecastListsAux]
    exact buildForecastListsAux_min_eq e l _

/-- C9: for every node and configuration map, OnNodeConfigHandler returns a
nil result and applies no change: the receiver is returned untouched, and
the publisher registry is not even an input of the handler, so it cannot be
modified. -/
theorem onNodeConfigHandler_noop (app : WeatherApp) (node : Node) (config : AttrMap) :
    onNodeConfigHandler app node config = (app, none) := rfl

/-- C4: in UpdateForecast the min-temperature entry of each iteration is
appended to the max-temperature accumulator (source line 144), so after the
loop the min-temperature list is not an independently accumulated list: it
is exactly the max-temperature list with the final entry's min appended
(and empty when there are no forecast entries). -/
theorem updateForecast_min_list_misaccumulated :
    (∀ (l : List ForecastEntry) (e : ForecastEntry),
      (buildForecastLists (l ++ [e])).2.2 =
        (buildForecastLists (l ++ [e])).2.1 ++ [⟨e.date, fmtF1 e.temp.min⟩]) ∧
    (buildForecastLists []).2.2 = [] :=
  ⟨fun l e => buildForecastListsAux_min_eq e l ([], [], []), rfl⟩

/-- C1: the fixed output set PublishNodes creates. The claim states the
forecast placeholder for the minimum temperature is a (temperature, "min")
output, but source line 64 creates (atmosphericPressure, "min") instead,
while UpdateForecast (line 148) publishes the min-temperature forecast to
(temperature, "min") — an output PublishNodes never creates. Evaluated on a
one-city list. -/
theorem publishNodes_min_output_is_pressure_not_temperature :
    (publishNodes sampleApp emptyState).outputs = cityOutputKeys "amsterdam" ∧
    (⟨"amsterdam", IOTypeAtmosphericPressure, "min"⟩ : OutputKey) ∈
      (publishNodes sampleApp emptyState).outputs ∧
    (⟨"amsterdam", IOTypeTemperature, "min"⟩ : OutputKey) ∉
      (publishNodes sampleApp emptyState).outputs ∧
    assocLookup (updateForecast fetchForecastEmpty sampleApp
        (publishNodes sampleApp emptyState)).forecasts
      ⟨"amsterdam", IOTypeTemperature, "min"⟩ = some [] := by
  decide

unseal Rat.mul in
/-- C6: for a current-weather response with rain.lastHour = 0.002, the value
written to the (rain, "hour") output is the string "2.0": the last-hour
rain scaled by 1000 and formatted to one decimal place. -/
theorem updateWeather_rain_value_scaled_to_2_0 :
    sampleCW.rain.lastHour = (2 : ℚ) / 1000 ∧
    assocLookup (updateWeather fetchSample sampleApp
        (publishNodes sampleApp emptyState)).outputValues
      ⟨"amsterdam", IOTypeRain, LastHourWeatherInst⟩ = some "2.0" := by
  constructor
  · show Rat.divInt 2 1000 = (2 : ℚ) / 1000
    rw [Rat.divInt_eq_div]
    norm_num
  · decide

/-- C2: if the weather client errors for the first processed (non-publisher)
city of an UpdateWeather cycle, the resulting state is exactly the input
state with that node's error status set to "Current weather not available":
no output value of any city is updated, and the remaining nodes are never
processed. -/
theorem updateWeather_first_city_error_aborts_cycle
    (fetch : String → String → String → Except String CurrentWeather)
    (app : WeatherApp) (s : PublisherState) (pre : List Node) (n : Node) (rest : List Node)
    (e : String)
    (hnodes : s.nodes = pre ++ n :: rest)
    (hpre : ∀ m ∈ pre, m.id = publisherNodeID)
    (hn : n.id ≠ publisherNodeID)
    (hf : fetch app.apiKey n.id (nodeLanguage n) = .error e) :
    updateWeather fetch app s = setErrorStatus s n.id "Current weather not available" ∧
    (updateWeather fetch app s).outputValues = s.outputValues ∧
    assocLookup (updateWeather fetch app s).nodeStatus n.id =
      some "Current weather not available" := by
  have h1 : updateWeather fetch app s =
      setErrorStatus s n.id "Current weather not available" := by
    unfold updateWeather
    rw [hnodes, updateWeatherLoop_skip_publisher fetch app.apiKey s pre _ hpre]
    simp [updateWeatherLoop, hn, hf]
  refine ⟨h1, by rw [h1]; rfl, ?_⟩
  rw [h1]
  exact assocLookup_assocSet_self _ _ _

/-- Witness for C2: with the two-city provisioned state and a client that
always fails, the cycle aborts on "amsterdam" with its error status set and
no output values touched. -/
theorem updateWeather_first_city_error_aborts_cycle_witness :
    updateWeather fetchAlwaysError twoCityApp provisionedTwo =
      setErrorStatus provisionedTwo "amsterdam" "Current weather not available" ∧
    (updateWeather fetchAlwaysError twoCityApp provisionedTwo).outputValues =
      provisionedTwo.outputValues ∧
    assocLookup (updateWeather fetchAlwaysError twoCityApp provisionedTwo).nodeStatus
      "amsterdam" = some "Current weather not available" := by
  exact updateWeather_first_city_error_aborts_cycle fetchAlwaysError twoCityApp
    provisionedTwo [pubNode0] amsNode [berNode] "connection refused"
    (by decide)
    (by intro m hm; simp only [List.mem_singleton] at hm; subst hm; rfl)
    (by decide) rfl

/-- C10: UpdateWeather is not atomic on mid-batch failure: when the first
processed city succeeds and the second fails, the result is exactly the
input state with the first city's eight output values written and the
second city's error status set — the first city's updates remain in place,
only the failing city gets the error status, and the remaining nodes are
skipped. -/
theorem updateWeather_mid_batch_failure_not_atomic
    (fetch : String → String → String → Except String CurrentWeather)
    (app : WeatherApp) (s : PublisherState) (pre : List Node) (n1 n2 : Node)
    (rest : List Node) (cw1 : CurrentWeather) (e : String)
    (hnodes : s.nodes = pre ++ n1 :: n2 :: rest)
    (hpre : ∀ m ∈ pre, m.id = publisherNodeID)
    (h1 : n1.id ≠ publisherNodeID) (h2 : n2.id ≠ publisherNodeID)
    (hf1 : fetch app.apiKey n1.id (nodeLanguage n1) = .ok cw1)
    (hf2 : fetch app.apiKey n2.id (nodeLanguage n2) = .error e) :
    updateWeather fetch app s =
      setErrorStatus (applyWeatherOutputs s n1 cw1) n2.id "Current weather not available" ∧
    assocLookup (updateWeather fetch app s).outputValues
      ⟨n1.id, IOTypeSnow, LastHourWeatherInst⟩ = some (fmtF1 (cw1.snow.lastHour * 1000)) ∧
    assocLookup (updateWeather fetch app s).nodeStatus n2.id =
      some "Current weather not available" := by
  have hmain : updateWeather fetch app s =
      setErrorStatus (applyWeatherOutputs s n1 cw1) n2.id "Current weather not available" := by
    unfold updateWeather
    rw [hnodes, updateWeatherLoop_skip_publisher fetch app.apiKey s pre _ hpre]
    simp [updateWeatherLoop, h1, h2, hf1, hf2]
  refine ⟨hmain, ?_, ?_⟩
  · rw [hmain]
    exact assocLookup_assocSet_self _ _ _
  · rw [hmain]
    exact assocLookup_assocSet_self _ _ _

/-- Witness for C10: with the two-city provisioned state and a client that
fails only for "berlin", amsterdam's already-written outputs remain, berlin
gets the error status, and the state equals the partially-updated state. -/
theorem updateWeather_mid_batch_failure_not_atomic_witness :
    updateWeather fetchBerlinError twoCityApp provisionedTwo =
      setErrorStatus (applyWeatherOutputs provisionedTwo amsNode sampleCW) "berlin"
        "Current weather not available" ∧
    assocLookup (updateWeather fetchBerlinError twoCityApp provisionedTwo).outputValues
      ⟨"amsterdam", IOTypeSnow, LastHourWeatherInst⟩ =
      some (fmtF1 (sampleCW.snow.lastHour * 1000)) ∧
    assocLookup (updateWeather fetchBerlinError twoCityApp provisionedTwo).nodeStatus
      "berlin" = some "Current weather not available" := by
  exact updateWeather_mid_batch_failure_not_atomic fetchBerlinError twoCityApp
    provisionedTwo [pubNode0] amsNode berNode [] sampleCW "berlin down"
    (by decide)
    (by intro m hm; simp only [List.mem_singleton] at hm; subst hm; rfl)
    (by decide) (by decide) rfl rfl

/-- C5: for the processed city, the value written to the (weather,
"current") output is the first entry's description of the response's
weather-description list, and the empty string when that list is empty. -/
theorem updateWeather_description_first_entry_or_empty
    (fetch : String → String → String → Except String CurrentWeather)
    (app : WeatherApp) (s : PublisherState) (pre : List Node) (n : Node)
    (cw : CurrentWeather)
    (hnodes : s.nodes = pre ++ [n])
    (hpre : ∀ m ∈ pre, m.id = publisherNodeID)
    (hn : n.id ≠ publisherNodeID)
    (hf : fetch app.apiKey n.id (nodeLanguage n) = .ok cw) :
    assocLookup (updateWeather fetch app s).outputValues
      ⟨n.id, IOTypeWeather, CurrentWeatherInst⟩ =
      some (match cw.weather with
            | [] => ""
            | w :: _ => w.description) := by
  have hloop : updateWeather fetch app s = applyWeatherOutputs s n cw := by
    unfold updateWeather
    rw [hnodes, updateWeatherLoop_skip_publisher fetch app.apiKey s pre _ hpre]
    simp [updateWeatherLoop, hn, hf]
  rw [hloop]
  simp only [applyWeatherOutputs, updateOutputValue]
  rw [assocLookup_assocSet_ne _ _ _ _ (by simp [OutputKey.mk.injEq, IOTypeSnow, IOTypeWeather]),
    assocLookup_assocSet_ne _ _ _ _ (by simp [OutputKey.mk.injEq, IOTypeRain, IOTypeWeather]),
    assocLookup_assocSet_ne _ _ _ _
      (by simp [OutputKey.mk.injEq, IOTypeWindHeading, IOTypeWeather]),
    assocLookup_assocSet_ne _ _ _ _
      (by simp [OutputKey.mk.injEq, IOTypeWindSpeed, IOTypeWeather]),
    assocLookup_assocSet_ne _ _ _ _
      (by simp [OutputKey.mk.injEq, IOTypeAtmosphericPressure, IOTypeWeather]),
    assocLookup_assocSet_ne _ _ _ _
      (by simp [OutputKey.mk.injEq, IOTypeHumidity, IOTypeWeather]),
    assocLookup_assocSet_ne _ _ _ _
      (by simp [OutputKey.mk.injEq, IOTypeTemperature, IOTypeWeather]),
    assocLookup_assocSet_self]
  rfl

/-- Witness for C5: a response with an empty weather-description list yields
the empty string on the (weather, "current") output. -/
theorem updateWeather_description_first_entry_or_empty_witness :
    assocLookup (updateWeather fetchEmptyDesc sampleApp
        (publishNodes sampleApp emptyState)).outputValues
      ⟨"amsterdam", IOTypeWeather, CurrentWeatherInst⟩ = some "" := by
  exact updateWeather_description_first_entry_or_empty fetchEmptyDesc sampleApp
    (publishNodes sampleApp emptyState) [pubNode0] amsNode emptyDescCW
    (by decide)
    (by intro m hm; simp only [List.mem_singleton] at hm; subst hm; rfl)
    (by decide) rfl

/-- C3 counterexample: an empty but non-nil forecast list (Go decodes
"list": [] to a non-nil empty slice, which the source's `== nil` test does
not catch) is not treated as a failure: no error status is set for any
node, and the cycle continues through both cities, publishing empty
forecast lists. This refutes the claim that an empty forecast list sets an
error status and aborts the cycle. -/
theorem updateForecast_empty_list_not_treated_as_failure :
    (updateForecast fetchForecastEmpty twoCityApp provisionedTwo).nodeStatus = [] ∧
    assocLookup (updateForecast fetchForecastEmpty twoCityApp provisionedTwo).forecasts
      ⟨"amsterdam", IOTypeWeather, ForecastWeatherInst⟩ = some [] ∧
    assocLookup (updateForecast fetchForecastEmpty twoCityApp provisionedTwo).forecasts
      ⟨"berlin", IOTypeWeather, ForecastWeatherInst⟩ = some [] := by
  decide

theorem updateForecastLoop_append_no_abort
    (fetch : String → String → String → Except String DailyForecast) (apikey : String) :
    ∀ pre : List Node,
      (∀ m ∈ pre, m.id = publisherNodeID ∨
        ∃ df : DailyForecast, (∃ entries, df.list = some entries) ∧
          fetch apikey m.id (nodeLanguage m) = .ok df) →
      ∀ (s : PublisherState) (l : List Node),
        updateForecastLoop fetch apikey s (pre ++ l) =
          updateForecastLoop fetch apikey (updateForecastLoop fetch apikey s pre) l := by
  intro pre
  induction pre with
  | nil => intro _ s l; rfl
  | cons m pre ih =>
    intro hpre s l
    by_cases hid : m.id = publisherNodeID
    · rw [List.cons_append,
        show updateForecastLoop fetch apikey s (m :: (pre ++ l)) =
          updateForecastLoop fetch apikey s (pre ++ l) from by
            simp [updateForecastLoop, hid],
        show updateForecastLoop fetch apikey s (m :: pre) =
          updateForecastLoop fetch apikey s pre from by
            simp [updateForecastLoop, hid]]
      exact ih (fun m2 h2 => hpre m2 (by simp [h2])) s l
    · rcases hpre m (by simp) with hid2 | ⟨df, ⟨entries, hent⟩, hok⟩
      · exact absurd hid2 hid
      · have hstep : ∀ (t : PublisherState) (l2 : List Node),
            updateForecastLoop fetch apikey t (m :: l2) =
              updateForecastLoop fetch apikey
                (updateForecastList (updateForecastList (updateForecastList t
                  ⟨m.id, IOTypeWeather, ForecastWeatherInst⟩ (buildForecastLists entries).1)
                  ⟨m.id, IOTypeTemperature, "max"⟩ (buildForecastLists entries).2.1)
                  ⟨m.id, IOTypeTemperature, "min"⟩ (buildForecastLists entries).2.2) l2 := by
          intro t l2
          simp [updateForecastLoop, hid, hok, hent]
        rw [List.cons_append, hstep s (pre ++ l), hstep s pre]
        exact ih (fun m2 h2 => hpre m2 (by simp [h2])) _ l

/-- C3 (amended): for every non-reserved node the forecast cycle reaches
(each earlier node is the publisher node or fetched a non-nil forecast), a
fetch error or a nil (absent) forecast list sets that node's error status
("Error getting the daily forecast" / "Daily forecast not provided") and
aborts the whole cycle immediately: the result is exactly the state built
from the earlier nodes with this node's error status set, so neither this
node nor any later node gets a forecast published; an empty but non-nil
forecast list is not a failure. -/
theorem updateForecast_fetch_error_or_nil_aborts
    (fetch : String → String → String → Except String DailyForecast)
    (app : WeatherApp) (s : PublisherState) (pre : List Node) (n : Node) (rest : List Node)
    (hnodes : s.nodes = pre ++ n :: rest)
    (hpre : ∀ m ∈ pre, m.id = publisherNodeID ∨
      ∃ df : DailyForecast, (∃ entries, df.list = some entries) ∧
        fetch app.apiKey m.id (nodeLanguage m) = .ok df)
    (hn : n.id ≠ publisherNodeID) :
    (∀ e, fetch app.apiKey n.id (nodeLanguage n) = .error e →
      updateForecast fetch app s =
        setErrorStatus (updateForecastLoop fetch app.apiKey s pre) n.id
          "Error getting the daily forecast") ∧
    (fetch app.apiKey n.id (nodeLanguage n) = .ok { list := none } →
      updateForecast fetch app s =
        setErrorStatus (updateForecastLoop fetch app.apiKey s pre) n.id
          "Daily forecast not provided") := by
  have hsplit : updateForecast fetch app s =
      updateForecastLoop fetch app.apiKey (updateForecastLoop fetch app.apiKey s pre)
        (n :: rest) := by
    unfold updateForecast
    rw [hnodes]
    exact updateForecastLoop_append_no_abort fetch app.apiKey pre hpre s (n :: rest)
  constructor
  · intro e hf
    rw [hsplit]
    simp [updateForecastLoop, hn, hf]
  · intro hf
    rw [hsplit]
    simp [updateForecastLoop, hn, hf]

/-- Witness for the amended C3: with the two-city provisioned state, a
client that succeeds for "amsterdam" (non-nil list) but fails for "berlin"
aborts mid-batch with berlin's error status on top of the state left by
amsterdam's publication, and a nil-list client aborts on the first city. -/
theorem updateForecast_fetch_error_or_nil_aborts_witness :
    updateForecast fetchForecastBerlinError twoCityApp provisionedTwo =
      setErrorStatus
        (updateForecastLoop fetchForecastBerlinError twoCityApp.apiKey provisionedTwo
          [pubNode0, amsNode]) "berlin" "Error getting the daily forecast" ∧
    updateForecast fetchForecastNil twoCityApp provisionedTwo =
      setErrorStatus
        (updateForecastLoop fetchForecastNil twoCityApp.apiKey provisionedTwo [pubNode0])
        "amsterdam" "Daily forecast not provided" := by
  constructor
  · exact (updateForecast_fetch_error_or_nil_aborts fetchForecastBerlinError twoCityApp
      provisionedTwo [pubNode0, amsNode] berNode []
      (by decide)
      (by
        intro m hm
        rcases List.mem_cons.mp hm with h | h
        · subst h
          exact Or.inl rfl
        · have h2 : m = amsNode := List.mem_singleton.mp h
          subst h2
          exact Or.inr ⟨{ list := some [] }, ⟨[], rfl⟩, rfl⟩)
      (by decide)).1 "berlin down" rfl
  · exact (updateForecast_fetch_error_or_nil_aborts fetchForecastNil twoCityApp
      provisionedTwo [pubNode0] amsNode [berNode]
      (by decide)
      (by intro m hm; rw [List.mem_singleton] at hm; subst hm; exact Or.inl rfl)
      (by decide)).2 rfl

theorem publishNodesCity_eq (p z c : String) (s : PublisherState) :
    publishNodesCity p z s c =
      List.foldl newOutput
        (updateNodeConfig (updateNode s (newNode z p c)) (newNode z p c) languageConfig)
        (cityOutputKeys c) := by
  simp only [publishNodesCity, cityOutputKeys, List.foldl_cons, List.foldl_nil,
    languageConfig, newConfig]

theorem newOutput_nodes (s : PublisherState) (k : OutputKey) :
    (newOutput s k).nodes = s.nodes := by
  unfold newOutput; split <;> rfl

theorem newOutput_publisherNode (s : PublisherState) (k : OutputKey) :
    (newOutput s k).publisherNode = s.publisherNode := by
  unfold newOutput; split <;> rfl

theorem foldl_newOutput_nodes (ks : List OutputKey) :
    ∀ s : PublisherState, (List.foldl newOutput s ks).nodes = s.nodes := by
  induction ks with
  | nil => intro s; rfl
  | cons k ks ih => intro s; rw [List.foldl_cons, ih, newOutput_nodes]

theorem foldl_newOutput_publisherNode (ks : List OutputKey) :
    ∀ s : PublisherState, (List.foldl newOutput s ks).publisherNode = s.publisherNode := by
  induction ks with
  | nil => intro s; rfl
  | cons k ks ih => intro s; rw [List.foldl_cons, ih, newOutput_publisherNode]

theorem updateNode_publisherNode (s : PublisherState) (n : Node) :
    (updateNode s n).publisherNode = s.publisherNode := by
  unfold updateNode; split <;> rfl

theorem updateNode_outputs (s : PublisherState) (n : Node) :
    (updateNode s n).outputs = s.outputs := by
  unfold updateNode; split <;> rfl

theorem publishNodesCity_publisherNode (p z c : String) (s : PublisherState) :
    (publishNodesCity p z s c).publisherNode = s.publisherNode := by
  rw [publishNodesCity_eq, foldl_newOutput_publisherNode]
  rw [show (updateNodeConfig (updateNode s (newNode z p c)) (newNode z p c)
    languageConfig).publisherNode = (updateNode s (newNode z p c)).publisherNode from rfl]
  rw [updateNode_publisherNode]

theorem foldl_publishNodesCity_publisherNode (p z : String) (l : List String) :
    ∀ s : PublisherState,
      (List.foldl (publishNodesCity p z) s l).publisherNode = s.publisherNode := by
  induction l with
  | nil => intro s; rfl
  | cons c rest ih =>
    intro s
    rw [List.foldl_cons, ih, publishNodesCity_publisherNode]

theorem publishNodes_publisherNode (app : WeatherApp) (s : PublisherState) :
    (publishNodes app s).publisherNode = s.publisherNode :=
  foldl_publishNodesCity_publisherNode app.publisherID s.publisherNode.zone app.cities s

theorem mem_newOutput_self (s : PublisherState) (k : OutputKey) :
    k ∈ (newOutput s k).outputs := by
  unfold newOutput
  split
  · assumption
  · simp

theorem mem_newOutput_mono (s : PublisherState) (k k2 : OutputKey) (h : k2 ∈ s.outputs) :
    k2 ∈ (newOutput s k).outputs := by
  unfold newOutput
  split
  · exact h
  · simp [h]

theorem mem_foldl_newOutput_mono (ks : List OutputKey) :
    ∀ (s : PublisherState) (k2 : OutputKey), k2 ∈ s.outputs →
      k2 ∈ (List.foldl newOutput s ks).outputs := by
  induction ks with
  | nil => intro s k2 h; exact h
  | cons k ks ih =>
    intro s k2 h
    rw [List.foldl_cons]
    exact ih _ _ (mem_newOutput_mono s k k2 h)

theorem mem_foldl_newOutput_all (ks : List OutputKey) :
    ∀ (s : PublisherState) (k : OutputKey), k ∈ ks →
      k ∈ (List.foldl newOutput s ks).outputs := by
  induction ks with
  | nil => intro s k h; cases h
  | cons k2 ks ih =>
    intro s k h
    rw [List.foldl_cons]
    rcases List.mem_cons.mp h with h1 | h1
    · subst h1
      exact mem_foldl_newOutput_mono ks _ k (mem_newOutput_self s k)
    · exact ih _ k h1

theorem foldl_newOutput_id (ks : List OutputKey) :
    ∀ s : PublisherState, (∀ k ∈ ks, k ∈ s.outputs) → List.foldl newOutput s ks = s := by
  induction ks with
  | nil => intro s _; rfl
  | cons k ks ih =>
    intro s h
    have hk : k ∈ s.outputs := h k (by simp)
    rw [List.foldl_cons, show newOutput s k = s from by unfold newOutput; rw [if_pos hk]]
    exact ih s (fun k2 h2 => h k2 (by simp [h2]))

theorem updateNode_nodes_pos (s : PublisherState) (n : Node)
    (hex : s.nodes.any (fun m => m.id = n.id) = true) :
    (updateNode s n).nodes =
      s.nodes.map (fun m => if m.id = n.id then { n with config := m.config } else m) := by
  unfold updateNode
  rw [if_pos hex]

theorem updateNode_nodes_neg (s : PublisherState) (n : Node)
    (hex : ¬ s.nodes.any (fun m => m.id = n.id) = true) :
    (updateNode s n).nodes = s.nodes ++ [n] := by
  unfold updateNode
  rw [if_neg hex]

theorem updateNodeConfig_nodes (s : PublisherState) (n : Node) (cfg : ConfigAttr) :
    (updateNodeConfig s n cfg).nodes =
      s.nodes.map (fun m =>
        if m.id = n.id then
          { m with config :=
              match assocLookup m.config cfg.name with
              | some _ => m.config
              | none => assocSet m.config cfg.name cfg.default }
        else m) := rfl

theorem updateNodeConfig_outputs (s : PublisherState) (n : Node) (cfg : ConfigAttr) :
    (updateNodeConfig s n cfg).outputs = s.outputs := rfl

theorem publishNodesCity_noop (p z c : String) (s : PublisherState)
    (h : cityProvisioned p z s c) : publishNodesCity p z s c = s := by
  obtain ⟨⟨m0, hm0, hid0⟩, hall, houts⟩ := h
  have hex : s.nodes.any (fun m => m.id = (newNode z p c).id) = true :=
    List.any_eq_true.mpr ⟨m0, hm0, by simp [newNode, hid0]⟩
  have h1 : updateNode s (newNode z p c) = s := by
    unfold updateNode
    rw [if_pos hex]
    have hmap : s.nodes.map (fun m =>
        if m.id = (newNode z p c).id then { newNode z p c with config := m.config } else m) =
        s.nodes := by
      conv_rhs => rw [← List.map_id s.nodes]
      apply List.map_congr_left
      intro m hm
      simp only [newNode, id_eq]
      by_cases hid : m.id = c
      · rw [if_pos hid]
        obtain ⟨hz, hp, -⟩ := hall m hm hid
        calc Node.mk z p c m.config
            = Node.mk m.zone m.publisherID m.id m.config := by rw [hz, hp, hid]
          _ = m := rfl
      · rw [if_neg hid]
    rw [hmap]
  rw [publishNodesCity_eq, h1]
  have h2 : updateNodeConfig s (newNode z p c) languageConfig = s := by
    unfold updateNodeConfig
    have hmap : s.nodes.map (fun m =>
        if m.id = (newNode z p c).id then
          { m with config :=
              match assocLookup m.config languageConfig.name with
              | some _ => m.config
              | none => assocSet m.config languageConfig.name languageConfig.default }
        else m) = s.nodes := by
      conv_rhs => rw [← List.map_id s.nodes]
      apply List.map_congr_left
      intro m hm
      simp only [newNode, languageConfig, newConfig, id_eq]
      by_cases hid : m.id = c
      · rw [if_pos hid]
        obtain ⟨-, -, hsome⟩ := hall m hm hid
        obtain ⟨v, hv⟩ := Option.isSome_iff_exists.mp hsome
        rw [hv]
      · rw [if_neg hid]
    rw [hmap]
  rw [h2]
  exact foldl_newOutput_id _ s houts

theorem provision_nodes_exists (p z c : String) (s : PublisherState) :
    ∃ m ∈ (updateNodeConfig (updateNode s (newNode z p c)) (newNode z p c)
      languageConfig).nodes, m.id = c := by
  rw [updateNodeConfig_nodes]
  by_cases hex : s.nodes.any (fun m => m.id = (newNode z p c).id) = true
  · rw [updateNode_nodes_pos _ _ hex, List.map_map]
    obtain ⟨m0, hm0, hp0⟩ := List.any_eq_true.mp hex
    have hid0 : m0.id = c := by simpa [newNode] using hp0
    refine ⟨_, List.mem_map_of_mem _ hm0, ?_⟩
    simp [newNode, hid0, languageConfig, newConfig]
  · rw [updateNode_nodes_neg _ _ hex]
    refine ⟨_, List.mem_map_of_mem _
      (show newNode z p c ∈ s.nodes ++ [newNode z p c] by simp), ?_⟩
    simp [newNode, languageConfig, newConfig]

theorem provision_nodes_all (p z c : String) (s : PublisherState) :
    ∀ m ∈ (updateNodeConfig (updateNode s (newNode z p c)) (newNode z p c)
      languageConfig).nodes, nodeProvisionedFor p z c m := by
  rw [updateNodeConfig_nodes]
  by_cases hex : s.nodes.any (fun m => m.id = (newNode z p c).id) = true
  · rw [updateNode_nodes_pos _ _ hex, List.map_map]
    intro m2 hm2
    obtain ⟨m1, hm1, rfl⟩ := List.mem_map.mp hm2
    by_cases hid1 : m1.id = c
    · intro _
      cases hl : assocLookup m1.config "language" with
      | some v =>
        simp [Function.comp_apply, newNode, hid1, languageConfig, newConfig, hl]
      | none =>
        simp [Function.comp_apply, newNode, hid1, languageConfig, newConfig, hl,
          assocLookup_assocSet_self]
    · simp only [Function.comp_apply, newNode]
      rw [if_neg hid1, if_neg hid1]
      intro hid2
      exact absurd hid2 hid1
  · rw [updateNode_nodes_neg _ _ hex, List.map_append]
    have hnone : ∀ m ∈ s.nodes, ¬ m.id = c := by
      intro m hm hidm
      exact hex (List.any_eq_true.mpr ⟨m, hm, by simp [newNode, hidm]⟩)
    intro m2 hm2
    rcases List.mem_append.mp hm2 with h | h
    · obtain ⟨m1, hm1, rfl⟩ := List.mem_map.mp h
      have hid1 := hnone m1 hm1
      simp only [newNode]
      rw [if_neg hid1]
      intro hid2
      exact absurd hid2 hid1
    · have hm2n : m2 = _ := (List.mem_singleton.mp (by simpa using h))
      subst hm2n
      intro _
      simp [newNode, languageConfig, newConfig, assocLookup, assocSet]

theorem provision_nodes_mem_other (p z c c2 : String) (hne : c2 ≠ c) (s : PublisherState)
    (m0 : Node) (hm0 : m0 ∈ s.nodes) (hid0 : m0.id = c2) :
    m0 ∈ (updateNodeConfig (updateNode s (newNode z p c)) (newNode z p c)
      languageConfig).nodes := by
  have hid0c : ¬ m0.id = c := by rw [hid0]; exact hne
  rw [updateNodeConfig_nodes]
  by_cases hex : s.nodes.any (fun m => m.id = (newNode z p c).id) = true
  · rw [updateNode_nodes_pos _ _ hex, List.map_map]
    refine List.mem_map.mpr ⟨m0, hm0, ?_⟩
    simp only [Function.comp_apply, newNode]
    rw [if_neg hid0c, if_neg hid0c]
  · rw [updateNode_nodes_neg _ _ hex]
    refine List.mem_map.mpr ⟨m0, List.mem_append_left _ hm0, ?_⟩
    simp only [newNode]
    rw [if_neg hid0c]

theorem provision_nodes_mem_other_rev (p z c c2 : String) (hne : c2 ≠ c)
    (s : PublisherState) (m : Node)
    (hm : m ∈ (updateNodeConfig (updateNode s (newNode z p c)) (newNode z p c)
      languageConfig).nodes) (hid : m.id = c2) : m ∈ s.nodes := by
  rw [updateNodeConfig_nodes] at hm
  by_cases hex : s.nodes.any (fun m => m.id = (newNode z p c).id) = true
  · rw [updateNode_nodes_pos _ _ hex, List.map_map] at hm
    obtain ⟨m1, hm1, heq⟩ := List.mem_map.mp hm
    by_cases hid1 : m1.id = c
    · have hmc : m.id = c := by
        rw [← heq]
        simp [Function.comp_apply, newNode, hid1, languageConfig, newConfig]
      exfalso
      exact hne (by rw [← hid, hmc])
    · have : m1 = m := by
        rw [← heq]
        simp only [Function.comp_apply, newNode]
        rw [if_neg hid1, if_neg hid1]
      exact this ▸ hm1
  · rw [updateNode_nodes_neg _ _ hex] at hm
    obtain ⟨m1, hm1, heq⟩ := List.mem_map.mp hm
    rcases List.mem_append.mp hm1 with h | h
    · by_cases hid1 : m1.id = c
      · have hmc : m.id = c := by
          rw [← heq]
          simp [newNode, hid1, languageConfig, newConfig]
        exfalso
        exact hne (by rw [← hid, hmc])
      · have : m1 = m := by
          rw [← heq]
          simp only [newNode]
          rw [if_neg hid1]
        exact this ▸ h
    · have hm1n : m1 = newNode z p c := List.mem_singleton.mp h
      subst hm1n
      have hmc : m.id = c := by
        rw [← heq]
        simp [newNode, languageConfig, newConfig]
      exfalso
      exact hne (by rw [← hid, hmc])

theorem cityProvisioned_after (p z c : String) (s : PublisherState) :
    cityProvisioned p z (publishNodesCity p z s c) c := by
  rw [publishNodesCity_eq]
  refine ⟨?_, ?_, ?_⟩
  · rw [foldl_newOutput_nodes]
    exact provision_nodes_exists p z c s
  · rw [foldl_newOutput_nodes]
    exact provision_nodes_all p z c s
  · intro k hk
    exact mem_foldl_newOutput_all _ _ k hk

theorem cityProvisioned_preserved (p z c c2 : String) (s : PublisherState)
    (h : cityProvisioned p z s c2) :
    cityProvisioned p z (publishNodesCity p z s c) c2 := by
  by_cases hcc : c = c2
  · subst hcc
    exact cityProvisioned_after p z c s
  · obtain ⟨⟨m0, hm0, hid0⟩, hall, houts⟩ := h
    have hne : c2 ≠ c := fun hh => hcc hh.symm
    rw [publishNodesCity_eq]
    refine ⟨?_, ?_, ?_⟩
    · rw [foldl_newOutput_nodes]
      exact ⟨m0, provision_nodes_mem_other p z c c2 hne s m0 hm0 hid0, hid0⟩
    · rw [foldl_newOutput_nodes]
      intro m hm hid
      exact hall m (provision_nodes_mem_other_rev p z c c2 hne s m hm hid) hid
    · intro k hk
      have h2 : k ∈ (updateNodeConfig (updateNode s (newNode z p c)) (newNode z p c)
          languageConfig).outputs := by
        rw [updateNodeConfig_outputs, updateNode_outputs]
        exact houts k hk
      exact mem_foldl_newOutput_mono _ _ k h2

theorem foldl_cityProvisioned_preserved (p z c2 : String) (l : List String) :
    ∀ s : PublisherState, cityProvisioned p z s c2 →
      cityProvisioned p z (List.foldl (publishNodesCity p z) s l) c2 := by
  induction l with
  | nil => intro s h; exact h
  | cons c rest ih =>
    intro s h
    rw [List.foldl_cons]
    exact ih _ (cityProvisioned_preserved p z c c2 s h)

theorem foldl_cityProvisioned_establishes (p z : String) (l : List String) :
    ∀ (s : PublisherState) (c : String), c ∈ l →
      cityProvisioned p z (List.foldl (publishNodesCity p z) s l) c := by
  induction l with
  | nil => intro s c h; cases h
  | cons c1 rest ih =>
    intro s c hc
    rw [List.foldl_cons]
    rcases List.mem_cons.mp hc with h | h
    · subst h
      exact foldl_cityProvisioned_preserved p z c rest _ (cityProvisioned_after p z c s)
    · exact ih _ c h

theorem foldl_publishNodesCity_noop (p z : String) (l : List String) :
    ∀ s : PublisherState, (∀ c ∈ l, cityProvisioned p z s c) →
      List.foldl (publishNodesCity p z) s l = s := by
  induction l with
  | nil => intro s _; rfl
  | cons c rest ih =>
    intro s h
    rw [List.foldl_cons, publishNodesCity_noop p z c s (h c (by simp))]
    exact ih s (fun c2 h2 => h c2 (by simp [h2]))

/-- C7: PublishNodes is idempotent: running it a second time on the state it
produced, with the unchanged city list, returns that state unchanged — in
particular the node count and the per-node output count and identities are
unchanged and no duplicate node or output is created. -/
theorem publishNodes_idempotent (app : WeatherApp) (s : PublisherState) :
    publishNodes app (publishNodes app s) = publishNodes app s := by
  show List.foldl (publishNodesCity app.publisherID (publishNodes app s).publisherNode.zone)
      (publishNodes app s) app.cities = publishNodes app s
  rw [publishNodes_publisherNode]
  exact foldl_publishNodesCity_noop app.publisherID s.publisherNode.zone app.cities
    (publishNodes app s)
    (fun c hc => foldl_cityProvisioned_establishes app.publisherID s.publisherNode.zone
      app.cities s c hc)

theorem find?_append_of_none {α : Type} (l1 l2 : List α) (p : α → Bool)
    (h : l1.find? p = none) : (l1 ++ l2).find? p = l2.find? p := by
  induction l1 with
  | nil => rfl
  | cons a l1 ih =>
    rw [List.cons_append]
    have hpa : ¬ p a = true := List.find?_eq_none.mp h a (by simp)
    rw [List.find?_cons_of_neg _ hpa]
    apply ih
    rw [List.find?_eq_none]
    intro x hx
    exact List.find?_eq_none.mp h x (by simp [hx])

theorem find?_append_of_some {α : Type} (l1 l2 : List α) (p : α → Bool) (a : α)
    (h : l1.find? p = some a) : (l1 ++ l2).find? p = some a := by
  induction l1 with
  | nil => cases h
  | cons b l1 ih =>
    rw [List.cons_append]
    by_cases hb : p b = true
    · rw [List.find?_cons_of_pos _ hb]
      rw [List.find?_cons_of_pos _ hb] at h
      exact h
    · rw [List.find?_cons_of_neg _ hb]
      rw [List.find?_cons_of_neg _ hb] at h
      exact ih h

theorem find?_map_id_pres (f : Node → Node) (hf : ∀ m, (f m).id = m.id) (c : String) :
    ∀ l : List Node,
      (l.map f).find? (fun m => m.id = c) = (l.find? (fun m => m.id = c)).map f := by
  intro l
  induction l with
  | nil => rfl
  | cons m l ih =>
    rw [List.map_cons]
    by_cases h : m.id = c
    · rw [List.find?_cons_of_pos _ (by simp [hf, h]), List.find?_cons_of_pos _ (by simp [h])]
      rfl
    · rw [List.find?_cons_of_neg _ (by simp [hf, h]), List.find?_cons_of_neg _ (by simp [h]),
        ih]

theorem publishNodesCity_language_self (p z c : String) (s : PublisherState) :
    nodeLanguageConfig (publishNodesCity p z s c) c =
      some ((nodeLanguageConfig s c).getD "en") := by
  have hnodes : (publishNodesCity p z s c).nodes =
      (updateNodeConfig (updateNode s (newNode z p c)) (newNode z p c) languageConfig).nodes := by
    rw [publishNodesCity_eq, foldl_newOutput_nodes]
  unfold nodeLanguageConfig
  rw [hnodes, updateNodeConfig_nodes]
  by_cases hex : s.nodes.any (fun m => m.id = (newNode z p c).id) = true
  · rw [updateNode_nodes_pos _ _ hex, List.map_map]
    rw [find?_map_id_pres _ (fun m => by
      by_cases h : m.id = c <;>
        simp [Function.comp_apply, newNode, h, languageConfig, newConfig]) c]
    cases hfind : s.nodes.find? (fun m => m.id = c) with
    | none =>
      exfalso
      obtain ⟨m0, hm0, hp0⟩ := List.any_eq_true.mp hex
      have hid0 : m0.id = c := by simpa [newNode] using hp0
      exact List.find?_eq_none.mp hfind m0 hm0 (by simp [hid0])
    | some m0 =>
      have hm0id : m0.id = c := by simpa using List.find?_some hfind
      cases hl : assocLookup m0.config "language" with
      | some v =>
        simp [Function.comp_apply, newNode, hm0id, languageConfig, newConfig, hl]
      | none =>
        simp [Function.comp_apply, newNode, hm0id, languageConfig, newConfig, hl,
          assocLookup_assocSet_self]
  · rw [updateNode_nodes_neg _ _ hex, List.map_append]
    have hnone : s.nodes.find? (fun m => m.id = c) = none := by
      rw [List.find?_eq_none]
      intro m hm
      simp only [decide_eq_true_eq]
      exact fun hc => hex (List.any_eq_true.mpr ⟨m, hm, by simp [newNode, hc]⟩)
    have hprefix : (s.nodes.map (fun m =>
        if m.id = (newNode z p c).id then
          { m with config :=
              match assocLookup m.config languageConfig.name with
              | some _ => m.config
              | none => assocSet m.config languageConfig.name languageConfig.default }
        else m)).find? (fun m => m.id = c) = none := by
      rw [find?_map_id_pres _ (fun m => by
        by_cases h : m.id = c <;>
          simp [newNode, h, languageConfig, newConfig]) c, hnone]
      rfl
    rw [find?_append_of_none _ _ _ hprefix, hnone]
    simp [newNode, languageConfig, newConfig, assocLookup, assocSet, List.find?]

theorem publishNodesCity_language_other (p z c c2 : String) (hne : c2 ≠ c)
    (s : PublisherState) :
    nodeLanguageConfig (publishNodesCity p z s c) c2 = nodeLanguageConfig s c2 := by
  have hnodes : (publishNodesCity p z s c).nodes =
      (updateNodeConfig (updateNode s (newNode z p c)) (newNode z p c) languageConfig).nodes := by
    rw [publishNodesCity_eq, foldl_newOutput_nodes]
  unfold nodeLanguageConfig
  rw [hnodes, updateNodeConfig_nodes]
  by_cases hex : s.nodes.any (fun m => m.id = (newNode z p c).id) = true
  · rw [updateNode_nodes_pos _ _ hex, List.map_map]
    rw [find?_map_id_pres _ (fun m => by
      by_cases h : m.id = c <;>
        simp [Function.comp_apply, newNode, h, languageConfig, newConfig]) c2]
    cases hfind : s.nodes.find? (fun m => m.id = c2) with
    | none => rfl
    | some m0 =>
      have hm0id : m0.id = c2 := by simpa using List.find?_some hfind
      have hm0c : ¬ m0.id = c := by rw [hm0id]; exact hne
      simp [Function.comp_apply, newNode, hm0c, languageConfig, newConfig]
  · rw [updateNode_nodes_neg _ _ hex, List.map_append]
    cases hfind : s.nodes.find? (fun m => m.id = c2) with
    | none =>
      have hprefix : (s.nodes.map (fun m =>
          if m.id = (newNode z p c).id then
            { m with config :=
                match assocLookup m.config languageConfig.name with
                | some _ => m.config
                | none => assocSet m.config languageConfig.name languageConfig.default }
          else m)).find? (fun m => m.id = c2) = none := by
        rw [find?_map_id_pres _ (fun m => by
          by_cases h : m.id = c <;>
            simp [newNode, h, languageConfig, newConfig]) c2, hfind]
        rfl
      rw [find?_append_of_none _ _ _ hprefix]
      simp [newNode, languageConfig, newConfig, List.find?, Ne.symm hne]
    | some m0 =>
      have hm0id : m0.id = c2 := by simpa using List.find?_some hfind
      have hm0c : ¬ m0.id = c := by rw [hm0id]; exact hne
      have hprefix : (s.nodes.map (fun m =>
          if m.id = (newNode z p c).id then
            { m with config :=
                match assocLookup m.config languageConfig.name with
                | some _ => m.config
                | none => assocSet m.config languageConfig.name languageConfig.default }
          else m)).find? (fun m => m.id = c2) =
          some (if m0.id = (newNode z p c).id then
            { m0 with config :=
                match assocLookup m0.config languageConfig.name with
                | some _ => m0.config
                | none => assocSet m0.config languageConfig.name languageConfig.default }
          else m0) := by
        rw [find?_map_id_pres _ (fun m => by
          by_cases h : m.id = c <;>
            simp [newNode, h, languageConfig, newConfig]) c2, hfind]
        rfl
      rw [find?_append_of_some _ _ _ _ hprefix]
      simp [newNode, hm0c, languageConfig, newConfig]

theorem foldl_language_untouched (p z c2 : String) (l : List String) :
    ∀ s : PublisherState, c2 ∉ l →
      nodeLanguageConfig (List.foldl (publishNodesCity p z) s l) c2 =
        nodeLanguageConfig s c2 := by
  induction l with
  | nil => intro s _; rfl
  | cons c rest ih =>
    intro s hni
    rw [List.foldl_cons, ih _ (fun hh => hni (List.mem_cons.mpr (Or.inr hh)))]
    exact publishNodesCity_language_other p z c c2
      (fun hh => hni (List.mem_cons.mpr (Or.inl hh))) s

theorem foldl_language_default (p z : String) (l : List String) :
    ∀ (s : PublisherState) (city : String), city ∈ l →
      nodeLanguageConfig (List.foldl (publishNodesCity p z) s l) city =
        some ((nodeLanguageConfig s city).getD "en") := by
  induction l with
  | nil => intro s city h; cases h
  | cons c rest ih =>
    intro s city hc
    rw [List.foldl_cons]
    by_cases hmem : city ∈ rest
    · rw [ih _ city hmem]
      by_cases hcc : c = city
      · subst hcc
        rw [publishNodesCity_language_self p z c s]
        simp
      · rw [publishNodesCity_language_other p z c city (fun hh => hcc hh.symm) s]
    · have hcc : city = c := by
        rcases List.mem_cons.mp hc with h | h
        · exact h
        · exact absurd h hmem
      subst hcc
      rw [foldl_language_untouched p z city rest _ hmem, publishNodesCity_language_self]

/-- C8: after PublishNodes, every configured city's registry node has a
"language" configuration whose value is the prior configuration's value
when one existed, and the default "en" otherwise. -/
theorem publishNodes_language_default (app : WeatherApp) (s : PublisherState)
    (city : String) (hc : city ∈ app.cities) :
    nodeLanguageConfig (publishNodes app s) city =
      some ((nodeLanguageConfig s city).getD "en") :=
  foldl_language_default app.publisherID s.publisherNode.zone app.cities s city hc

/-- Witness for C8: provisioning the one-city configuration from a fresh
state gives the "amsterdam" node the default language "en". -/
theorem publishNodes_language_default_witness :
    nodeLanguageConfig (publishNodes sampleApp emptyState) "amsterdam" =
      some ((nodeLanguageConfig emptyState "amsterdam").getD "en") :=
  publishNodes_language_default sampleApp emptyState "amsterdam" (by decide)
